import Mathlib

/-!
Shallow embedding of the MingHe buck converter serial protocol engine
(MingHeChecksum.cpp / MingHeChecksum.h and MingHeBuckConverter.cpp /
MingHeBuckConverter.h).

Bytes are modelled as natural numbers holding the unsigned value of the
char on the wire.  The serial transport is modelled as a list of read
events: each event is either the arrival of one byte or the expiry of
the per-character timeout with no byte arriving.  An exhausted list
behaves as a transport that stays silent, so every further read times
out.  Millisecond quantities are abstracted by the event model: a
timeout event stands for the elapse of the per-character bound with no
data.
-/

/-- One observable outcome of a bounded single-character wait on the
serial transport: either a byte arrives, or the per-character timeout
elapses with no data. -/
inductive ReadEvent : Type
  | timeout : ReadEvent
  | byte (b : Nat) : ReadEvent
  deriving DecidableEq

/-- The byte value that a bounded read yields for an event: a timeout
yields the sentinel 0, a byte yields itself. -/
def readEventValue : ReadEvent → Nat
  | ReadEvent.timeout => 0
  | ReadEvent.byte b => b

/-- Per-character timeout, milliseconds (MINGHE_PER_CHARACTER_TIMEOUT_MS). -/
def MINGHE_PER_CHARACTER_TIMEOUT_MS : Nat := 500

/-- Junk budget of the synchronization loop (MINGHE_MAX_JUNK_CHARACTERS). -/
def MINGHE_MAX_JUNK_CHARACTERS : Nat := 32

/-- Allowed upward drift for the accumulated-charge setter (MAMP_HOUR_TOLERANCE). -/
def MAMP_HOUR_TOLERANCE : Nat := 100

/-- Allowed upward drift for the power-on-time setter (SECOND_TOLERANCE). -/
def SECOND_TOLERANCE : Nat := 2

/-- Fuel-bounded form of the repeated-subtraction loop in
MingHeBuckConverterChecksum.addOutputCharacter (while the counter is at
least 26, subtract 26).  The first argument only bounds the iteration
count; the value itself is always enough fuel, since every iteration
lowers the value by 26. -/
def reduceLoop : Nat → Nat → Nat
  | 0, x => x
  | fuel + 1, x => if 26 ≤ x then reduceLoop fuel (x - 26) else x

/-- The reduction performed by the while loop of addOutputCharacter. -/
def reduce26 (x : Nat) : Nat := reduceLoop x x

/-- MingHeBuckConverterChecksum.addOutputCharacter: the counter is an
unsigned 8-bit cell, so the addition wraps modulo 256; the while loop
then reduces the counter below 26. -/
def addOutputCharacter (counter c : Nat) : Nat :=
  reduce26 ((counter + c) % 256)

/-- MingHeBuckConverterChecksum.getChecksumCharacter: counter plus the
ASCII code of the letter A (65). -/
def getChecksumCharacter (counter : Nat) : Nat := counter + 65

/-- One call on the checksum accumulator object: reset clears the
counter to zero, add feeds one byte. -/
inductive ChecksumOp : Type
  | reset : ChecksumOp
  | add (c : Nat) : ChecksumOp

/-- Run a sequence of calls on the checksum accumulator starting from a
given counter value. -/
def runChecksum (ops : List ChecksumOp) (counter : Nat) : Nat :=
  ops.foldl
    (fun s op =>
      match op with
      | ChecksumOp.reset => 0
      | ChecksumOp.add c => addOutputCharacter s c)
    counter

/-- Two-character rendering of the device id by sendRequest: itoa into a
buffer, then either a leading zero digit plus the single digit, or the
two digits of the two-digit decimal rendering. -/
def addrChars (device_id : Nat) : List Nat :=
  if device_id < 10 then [48, 48 + device_id]
  else [48 + device_id / 10, 48 + device_id % 10]

/-- The bytes of a request that sendRequest feeds to the checksum: the
colon (58), the two address digits, the direction byte (115 for a set,
114 for a read), the command byte and the value digits. -/
def requestPayload (device_id : Nat) (set : Bool) (command : Nat)
    (value : List Nat) : List Nat :=
  58 :: (addrChars device_id ++ [if set then 115 else 114, command] ++ value)

/-- MingHeBuckConverter.sendRequest: the wire bytes of a request.  The
checksum character is computed over the payload and printed directly,
never fed back into the checksum; a line feed (10) ends the frame. -/
def sendRequest (device_id : Nat) (set : Bool) (command : Nat)
    (value : List Nat) : List Nat :=
  requestPayload device_id set command value ++
    [getChecksumCharacter
      ((requestPayload device_id set command value).foldl addOutputCharacter 0),
     10]

/-- MingHeBuckConverter.readCharUntilTimeout: return the next byte, or
the sentinel 0 if the timeout elapses with nothing available.  The
millisecond bound is abstracted by the event model. -/
def readCharUntilTimeout (timeout_ms : Nat) :
    List ReadEvent → Nat × List ReadEvent
  | [] => (0, [])
  | ReadEvent.timeout :: rest => (0, rest)
  | ReadEvent.byte b :: rest => (b, rest)

/-- The do-while synchronization loop of readResponseIntoBuffer.  The C
code counts chars_read upward and fails as soon as chars_read reaches
MINGHE_MAX_JUNK_CHARACTERS, checking the colon only afterwards; here the
budget counts the remaining allowance downward (budget equals
MINGHE_MAX_JUNK_CHARACTERS minus chars_read), so the loop is entered
with the full budget.  Returns the remaining stream after the colon
byte, or none on overflow of the junk budget. -/
def syncLoop : Nat → List ReadEvent → Option (List ReadEvent)
  | 0, _ => none
  | budget + 1, input =>
    match readCharUntilTimeout MINGHE_PER_CHARACTER_TIMEOUT_MS input with
    | (c, rest) =>
      if budget = 0 then none
      else if c = 58 then some rest
      else syncLoop budget rest

/-- ASCII classification used by the reader: uppercase letter. -/
def isupperB (c : Nat) : Bool := decide (65 ≤ c ∧ c ≤ 90)

/-- ASCII classification used by the reader: decimal digit. -/
def isdigitB (c : Nat) : Bool := decide (48 ≤ c ∧ c ≤ 57)

/-- ASCII classification used by the C library atoi: whitespace. -/
def isspaceB (c : Nat) : Bool := decide (c = 32 ∨ (9 ≤ c ∧ c ≤ 13))

/-- The bytes of a zero-terminated C string stored in a zero-initialized
buffer: everything before the first zero byte. -/
def cString (l : List Nat) : List Nat := l.takeWhile (fun c => c != 0)

/-- The digit-consuming loop of the C library atoi and atol: consume
decimal digits, accumulating the value, stopping at the first non-digit
byte. -/
def atoiLoop (acc : Int) : List Nat → Int
  | [] => acc
  | c :: rest =>
    if isdigitB c then atoiLoop (10 * acc + ((c : Int) - 48)) rest else acc

/-- The C library atoi and atol on a byte string: skip whitespace,
accept an optional sign, then consume a run of decimal digits. -/
def atoi (s : List Nat) : Int :=
  match s.dropWhile (fun c => isspaceB c) with
  | 43 :: rest => atoiLoop 0 rest
  | 45 :: rest => - atoiLoop 0 rest
  | s1 => atoiLoop 0 s1

/-- The payload loop of readResponseIntoBuffer: read up to buffer_length
bytes; a non-uppercase byte is appended to the buffer and fed to the
checksum; an uppercase byte is taken as the checksum character and
compared with the accumulator, a mismatch failing the read.  When the
budget is exhausted without an uppercase byte, the C for-loop simply
falls through and the read is reported successful, with no checksum
verification at all (see the C4 theorem below). -/
def payloadLoop : Nat → Nat → List Nat → List ReadEvent →
    Option (List Nat × List ReadEvent)
  | 0, _, buffer, input => some (buffer, input)
  | budget + 1, counter, buffer, input =>
    match readCharUntilTimeout MINGHE_PER_CHARACTER_TIMEOUT_MS input with
    | (c, rest) =>
      if isupperB c then
        if c ≠ getChecksumCharacter counter then none
        else some (buffer, rest)
      else payloadLoop budget (addOutputCharacter counter c) (buffer ++ [c]) rest

/-- MingHeBuckConverter.swallowNewlines: peek at and consume leading
carriage-return (13) and line-feed (10) bytes; stop at any other pending
byte or when nothing is immediately available. -/
def swallowNewlines : List ReadEvent → List ReadEvent
  | ReadEvent.byte 13 :: rest => swallowNewlines rest
  | ReadEvent.byte 10 :: rest => swallowNewlines rest
  | es => es

/-- MingHeBuckConverter.readResponseIntoBuffer: reset the checksum, sync
on the colon within the junk budget, read the two address digits and
compare them (through atoi on the two-character id buffer) with the
configured device id, run the payload loop, and drain trailing newline
bytes.  Returns the bytes written into the buffer together with the
remaining stream on success, none on any failure. -/
def readResponseIntoBuffer (device_id : Nat) (buffer_length : Nat)
    (input : List ReadEvent) : Option (List Nat × List ReadEvent) :=
  match syncLoop MINGHE_MAX_JUNK_CHARACTERS input with
  | none => none
  | some rest =>
    match readCharUntilTimeout MINGHE_PER_CHARACTER_TIMEOUT_MS rest with
    | (d0, rest1) =>
      match readCharUntilTimeout MINGHE_PER_CHARACTER_TIMEOUT_MS rest1 with
      | (d1, rest2) =>
        if atoi (cString [d0, d1]) ≠ (device_id : Int) then none
        else
          match payloadLoop buffer_length
              (addOutputCharacter
                (addOutputCharacter (addOutputCharacter 0 58) d0) d1)
              [] rest2 with
          | none => none
          | some (buffer, rest3) => some (buffer, swallowNewlines rest3)

/-- The value-copy loop of readResponse: starting at index 2 of the
response buffer, copy bytes into the value array, stopping after the
first non-digit byte has been copied or after 14 copies.  The response
buffer is a zero-initialized 16-byte array, so positions past the bytes
actually written read as the zero byte. -/
def copyGo : Nat → List Nat → List Nat
  | 0, _ => []
  | fuel + 1, l =>
    if isdigitB (l.headD 0) then l.headD 0 :: copyGo fuel l.tail
    else [l.headD 0]

/-- The bytes that readResponse writes into the value array, given the
bytes the frame reader wrote into the response buffer. -/
def copyValue (buffer : List Nat) : List Nat := copyGo 14 (buffer.drop 2)

/-- MingHeBuckConverter.readResponse: read a frame into a 16-byte zeroed
buffer (15 usable bytes), check the direction byte and the command byte,
then copy the value field out.  Returns the bytes written into the value
array. -/
def readResponse (device_id : Nat) (set : Bool) (command : Nat)
    (input : List ReadEvent) : Option (List Nat) :=
  match readResponseIntoBuffer device_id 15 input with
  | none => none
  | some (buffer, _) =>
    if buffer.getD 0 0 ≠ (if set then 115 else 114) then none
    else if buffer.getD 1 0 ≠ command then none
    else some (copyValue buffer)

/-- MingHeBuckConverter.checkForOk: read a frame and compare the buffer,
as a C string, with the bytes of ok (111, 107).  Returns the remaining
stream when the acknowledgement is ok, none on a read failure or any
other buffer contents. -/
def checkForOk (device_id : Nat) (input : List ReadEvent) :
    Option (List ReadEvent) :=
  match readResponseIntoBuffer device_id 15 input with
  | none => none
  | some (buffer, rest) =>
    if cString buffer = [111, 107] then some rest else none

/-- The conversion performed by executeGetCommand on the value array:
atol on the zero-terminated contents, cast to an unsigned 32-bit
integer. -/
def atolU32 (value : List Nat) : Nat :=
  ((atoi (cString value)) % (4294967296 : Int)).toNat

/-- MingHeBuckConverter.executeGetCommand: send a read request, read and
check the response, and return the parsed value; every failure collapses
to the sentinel 0.  Transmitting the request does not alter the inbound
stream, so the model consumes the inbound stream directly. -/
def executeGetCommand (device_id : Nat) (command : Nat)
    (input : List ReadEvent) : Nat :=
  match readResponse device_id false command input with
  | none => 0
  | some value => atolU32 value

/-- Unsigned 32-bit subtraction of b from a, as computed on uint32
operands in the drift checks of setmAmpHours and setPowerOnTime. -/
def sub32 (a b : Nat) : Nat :=
  (a % 4294967296 + (4294967296 - b % 4294967296)) % 4294967296

/-- The read-back verification of setmAmpHours: the unsigned 32-bit
difference between the value read back and the value written must be
below MAMP_HOUR_TOLERANCE. -/
def mAmpHoursVerify (mamp_hours readback : Nat) : Bool :=
  decide (sub32 readback mamp_hours < MAMP_HOUR_TOLERANCE)

/-- The read-back verification of setPowerOnTime: the unsigned 32-bit
difference between the value read back and the value written must be
below SECOND_TOLERANCE. -/
def powerOnTimeVerify (seconds readback : Nat) : Bool :=
  decide (sub32 readback seconds < SECOND_TOLERANCE)

/-- MingHeBuckConverter.setmAmpHours: execute the set command, whose
acknowledgement executeSetCommand checks through checkForOk, then read
the value back with command 97 (letter a) and accept an upward drift
strictly below MAMP_HOUR_TOLERANCE. -/
def setmAmpHours (device_id : Nat) (mamp_hours : Nat)
    (input : List ReadEvent) : Bool :=
  match checkForOk device_id input with
  | none => false
  | some rest =>
    mAmpHoursVerify mamp_hours (executeGetCommand device_id 97 rest)

/-- MingHeBuckConverter.setPowerOnTime: same shape as setmAmpHours with
command 116 (letter t) and SECOND_TOLERANCE. -/
def setPowerOnTime (device_id : Nat) (seconds : Nat)
    (input : List ReadEvent) : Bool :=
  match checkForOk device_id input with
  | none => false
  | some rest =>
    powerOnTimeVerify seconds (executeGetCommand device_id 116 rest)

/-- The inbound events of a byte sequence arriving byte by byte with no
timeouts in between. -/
def frameEvents (bytes : List Nat) : List ReadEvent :=
  bytes.map ReadEvent.byte

/-- The acknowledgement frame of a device at address 01: colon, the two
address digits, the letters o and k, the checksum letter J (74), and a
line feed. -/
def okResponseBytes : List Nat := [58, 48, 49, 111, 107, 74, 10]

/-! Helper lemmas about the checksum accumulator. -/

theorem reduceLoop_eq_mod (fuel : Nat) :
    ∀ x : Nat, x ≤ fuel → reduceLoop fuel x = x % 26 := by
  induction fuel with
  | zero =>
    intro x hx
    interval_cases x
    rfl
  | succ fuel ih =>
    intro x hx
    by_cases h : 26 ≤ x
    · have hx26 : x - 26 ≤ fuel := by omega
      have := ih (x - 26) hx26
      simp only [reduceLoop, if_pos h, this]
      omega
    · simp only [reduceLoop, if_neg h]
      omega

theorem reduce26_eq_mod (x : Nat) : reduce26 x = x % 26 :=
  reduceLoop_eq_mod x x le_rfl

theorem addOutputCharacter_eq (counter c : Nat) :
    addOutputCharacter counter c = ((counter + c) % 256) % 26 := by
  simp [addOutputCharacter, reduce26_eq_mod]

theorem addOutputCharacter_lt (counter c : Nat) :
    addOutputCharacter counter c < 26 := by
  rw [addOutputCharacter_eq]
  omega

theorem addOutputCharacter_small (counter c : Nat) (h1 : counter < 26)
    (h2 : c < 128) : addOutputCharacter counter c = (counter + c) % 26 := by
  rw [addOutputCharacter_eq, Nat.mod_eq_of_lt (show counter + c < 256 by omega)]

theorem foldl_addOutputCharacter_sum (l : List Nat) :
    ∀ counter : Nat, counter < 26 → (∀ c ∈ l, c < 128) →
      l.foldl addOutputCharacter counter = (counter + l.sum) % 26 := by
  induction l with
  | nil =>
    intro counter h _
    simp [Nat.mod_eq_of_lt h]
  | cons c l ih =>
    intro counter h hl
    have hc : c < 128 := hl c (List.mem_cons_self c l)
    have hsmall := addOutputCharacter_small counter c h hc
    have hlt := addOutputCharacter_lt counter c
    simp only [List.foldl_cons, List.sum_cons]
    rw [ih (addOutputCharacter counter c) hlt
      (fun x hx => hl x (List.mem_cons_of_mem c hx)), hsmall,
      Nat.mod_add_mod]
    ring_nf

theorem foldl_addOutputCharacter_lt (l : List Nat) :
    ∀ counter : Nat, counter < 26 → l.foldl addOutputCharacter counter < 26 := by
  induction l with
  | nil => intro counter h; simpa using h
  | cons c l ih =>
    intro counter h
    simp only [List.foldl_cons]
    exact ih _ (addOutputCharacter_lt counter c)

theorem runChecksum_lt (ops : List ChecksumOp) :
    ∀ counter : Nat, counter < 26 → runChecksum ops counter < 26 := by
  induction ops with
  | nil => intro c h; simpa [runChecksum] using h
  | cons op ops ih =>
    intro c h
    simp only [runChecksum, List.foldl_cons] at ih ⊢
    cases op with
    | reset => exact ih 0 (by omega)
    | add b => exact ih _ (addOutputCharacter_lt c b)

/-! Helper lemmas about the byte-level reads and the reader loops. -/

theorem readCharUntilTimeout_cons (t : Nat) (e : ReadEvent)
    (es : List ReadEvent) :
    readCharUntilTimeout t (e :: es) = (readEventValue e, es) := by
  cases e <;> rfl

theorem syncLoop_succ_nil (b : Nat) :
    syncLoop (b + 1) [] = if b = 0 then none else syncLoop b [] := by
  by_cases hb : b = 0 <;> simp [syncLoop, readCharUntilTimeout, hb]

theorem syncLoop_succ_cons (b : Nat) (e : ReadEvent) (es : List ReadEvent) :
    syncLoop (b + 1) (e :: es) =
      if b = 0 then none
      else if readEventValue e = 58 then some es
      else syncLoop b es := by
  cases e <;> by_cases hb : b = 0 <;>
    simp [syncLoop, readCharUntilTimeout, readEventValue, hb]

theorem syncLoop_none (budget : Nat) :
    ∀ es : List ReadEvent,
      (∀ e ∈ es.take (budget - 1), readEventValue e ≠ 58) →
      syncLoop budget es = none := by
  induction budget with
  | zero => intro es _; rfl
  | succ b ih =>
    intro es h
    simp only [Nat.add_sub_cancel] at h
    cases es with
    | nil =>
      by_cases hb : b = 0
      · subst hb; rfl
      · rw [syncLoop_succ_nil, if_neg hb]
        exact ih [] (by simp)
    | cons e rest =>
      by_cases hb : b = 0
      · subst hb; rw [syncLoop_succ_cons]; simp
      · obtain ⟨k, rfl⟩ : ∃ k, b = k + 1 := ⟨b - 1, by omega⟩
        rw [List.take_succ_cons] at h
        rw [syncLoop_succ_cons, if_neg hb,
          if_neg (h e (List.mem_cons_self e _))]
        exact ih rest (by
          intro x hx
          simp only [Nat.add_sub_cancel] at hx
          exact h x (List.mem_cons_of_mem e hx))

theorem syncLoop_colon (es : List ReadEvent) :
    syncLoop MINGHE_MAX_JUNK_CHARACTERS (ReadEvent.byte 58 :: es) = some es := rfl

theorem payloadLoop_succ_byte (budget counter : Nat) (buffer : List Nat)
    (b : Nat) (rest : List ReadEvent) :
    payloadLoop (budget + 1) counter buffer (ReadEvent.byte b :: rest) =
      (if isupperB b then
        if b ≠ getChecksumCharacter counter then none else some (buffer, rest)
      else
        payloadLoop budget (addOutputCharacter counter b) (buffer ++ [b]) rest) :=
  rfl

theorem payloadLoop_run (L : List Nat) :
    ∀ (counter : Nat) (buffer : List Nat) (budget : Nat)
      (rest : List ReadEvent),
      counter < 26 →
      (∀ c ∈ L, isupperB c = false) →
      L.length < budget →
      payloadLoop budget counter buffer
          (List.map ReadEvent.byte L ++
            ReadEvent.byte
              (getChecksumCharacter (L.foldl addOutputCharacter counter)) ::
              rest)
        = some (buffer ++ L, rest) := by
  induction L with
  | nil =>
    intro counter buffer budget rest hc _ hlen
    obtain ⟨b, rfl⟩ : ∃ b, budget = b + 1 := ⟨budget - 1, by omega⟩
    have hup : isupperB (getChecksumCharacter counter) = true := by
      simp only [isupperB, getChecksumCharacter, decide_eq_true_eq]
      omega
    simp [payloadLoop_succ_byte, hup]
  | cons c L ih =>
    intro counter buffer budget rest hc hL hlen
    obtain ⟨b, rfl⟩ : ∃ b, budget = b + 1 := ⟨budget - 1, by omega⟩
    have hcup : isupperB c = false := hL c (List.mem_cons_self c L)
    simp only [List.map_cons, List.cons_append, List.foldl_cons]
    rw [payloadLoop_succ_byte, hcup]
    simp only [Bool.false_eq_true, if_false]
    rw [ih (addOutputCharacter counter c) (buffer ++ [c]) b rest
      (addOutputCharacter_lt counter c)
      (fun x hx => hL x (List.mem_cons_of_mem c hx))
      (by simpa using hlen)]
    simp

theorem copyGo_digits (value : List Nat) :
    ∀ fuel : Nat, value.length < fuel →
      (∀ c ∈ value, isdigitB c = true) →
      copyGo fuel value = value ++ [0] := by
  induction value with
  | nil =>
    intro fuel hf _
    obtain ⟨f, rfl⟩ : ∃ f, fuel = f + 1 := ⟨fuel - 1, by omega⟩
    simp [copyGo, isdigitB]
  | cons v vs ih =>
    intro fuel hf hd
    obtain ⟨f, rfl⟩ : ∃ f, fuel = f + 1 := ⟨fuel - 1, by omega⟩
    have hv : isdigitB v = true := hd v (List.mem_cons_self v vs)
    simp only [copyGo, List.headD_cons, hv, if_true, List.tail_cons]
    rw [ih f (by simpa using hf) (fun c hc => hd c (List.mem_cons_of_mem v hc))]
    rfl

theorem takeWhile_digits (value : List Nat)
    (h : ∀ c ∈ value, isdigitB c = true) :
    (value ++ [0]).takeWhile isdigitB = value := by
  induction value with
  | nil => simp [isdigitB]
  | cons v vs ih =>
    have hv := h v (List.mem_cons_self v vs)
    simp only [List.cons_append, List.takeWhile_cons, hv, if_true]
    rw [ih (fun c hc => h c (List.mem_cons_of_mem v hc))]

theorem addrChars_eq (device_id : Nat) (h : device_id ≤ 99) :
    addrChars device_id = [48 + device_id / 10, 48 + device_id % 10] := by
  interval_cases device_id <;> rfl

theorem atoi_addr (device_id : Nat) (h : device_id ≤ 99) :
    atoi (cString [48 + device_id / 10, 48 + device_id % 10])
      = (device_id : Int) := by
  interval_cases device_id <;> rfl

theorem readResponseIntoBuffer_frame (device_id : Nat) (L : List Nat)
    (rest : List ReadEvent) (h1 : device_id ≤ 99)
    (hL : ∀ c ∈ L, isupperB c = false) (hlen : L.length < 15) :
    readResponseIntoBuffer device_id 15
        (ReadEvent.byte 58 ::
          ReadEvent.byte (48 + device_id / 10) ::
            ReadEvent.byte (48 + device_id % 10) ::
              (List.map ReadEvent.byte L ++
                ReadEvent.byte
                  (getChecksumCharacter
                    ((58 :: (48 + device_id / 10) :: (48 + device_id % 10) ::
                        L).foldl addOutputCharacter 0)) :: rest))
      = some (L, swallowNewlines rest) := by
  have hcnt :
      addOutputCharacter
        (addOutputCharacter (addOutputCharacter 0 58) (48 + device_id / 10))
        (48 + device_id % 10) < 26 := addOutputCharacter_lt _ _
  simp only [readResponseIntoBuffer, syncLoop_colon, readCharUntilTimeout_cons,
    readEventValue, List.foldl_cons]
  rw [atoi_addr device_id h1]
  simp only [ne_eq, not_true_eq_false, if_false]
  rw [payloadLoop_run L _ [] 15 rest hcnt hL hlen]
  simp

/-- C1: round-trip of the frame encoder and the frame reader.  For every
address in 0..99, both directions, every valid (lowercase) command byte
and every value digit-string of a length the response buffer can carry,
feeding the exact byte sequence produced by sendRequest to
readResponseIntoBuffer plus readResponse configured for the same
address, direction and command succeeds, and the value array it fills
carries the original value digit-string exactly (followed by the zero
terminator supplied by the zero-initialized buffer); the direction and
command are recovered because readResponse validates them against the
originals on the way.  -/
theorem roundtrip_encode_decode (device_id command : Nat) (set : Bool)
    (value : List Nat) (h1 : device_id ≤ 99) (h2 : 97 ≤ command)
    (h3 : command ≤ 122) (h4 : ∀ c ∈ value, 48 ≤ c ∧ c ≤ 57)
    (h5 : value.length ≤ 12) :
    readResponse device_id set command
        (frameEvents (sendRequest device_id set command value))
      = some (value ++ [0])
    ∧ (value ++ [0]).takeWhile isdigitB = value := by
  have hdig : ∀ c ∈ value, isdigitB c = true := by
    intro c hc
    simp only [isdigitB, decide_eq_true_eq]
    exact h4 c hc
  refine ⟨?_, takeWhile_digits value hdig⟩
  have hL : ∀ c ∈ (if set then (115 : Nat) else 114) :: command :: value,
      isupperB c = false := by
    intro c hc
    simp only [List.mem_cons] at hc
    rcases hc with rfl | rfl | hc
    · cases set <;> simp [isupperB]
    · simp only [isupperB, decide_eq_false_iff_not, not_and, not_le]
      omega
    · have := h4 c hc
      simp only [isupperB, decide_eq_false_iff_not, not_and, not_le]
      omega
  have hlen : ((if set then (115 : Nat) else 114) :: command :: value).length
      < 15 := by
    simp only [List.length_cons]
    omega
  have hbuf := readResponseIntoBuffer_frame device_id
    ((if set then (115 : Nat) else 114) :: command :: value)
    [ReadEvent.byte 10] h1 hL hlen
  have hfr : frameEvents (sendRequest device_id set command value)
      = ReadEvent.byte 58 ::
          ReadEvent.byte (48 + device_id / 10) ::
            ReadEvent.byte (48 + device_id % 10) ::
              (List.map ReadEvent.byte
                  ((if set then (115 : Nat) else 114) :: command :: value) ++
                ReadEvent.byte
                  (getChecksumCharacter
                    ((58 :: (48 + device_id / 10) :: (48 + device_id % 10) ::
                        ((if set then (115 : Nat) else 114) :: command ::
                          value)).foldl addOutputCharacter 0)) ::
                  [ReadEvent.byte 10]) := by
    simp [frameEvents, sendRequest, requestPayload, addrChars_eq device_id h1]
  rw [hfr]
  simp only [readResponse, hbuf, List.getD_cons_zero, List.getD_cons_succ,
    ne_eq, not_true_eq_false, if_false, ite_false]
  have hcopy : copyValue
      ((if set then (115 : Nat) else 114) :: command :: value)
      = value ++ [0] := by
    simp only [copyValue, List.drop_succ_cons, List.drop_zero]
    exact copyGo_digits value 14 (by omega) hdig
  simp [hcopy]

/-- Witness for C1 at a concrete input: address 1, direction read,
command z (122), value 6015. -/
theorem roundtrip_encode_decode_witness :
    (1 : Nat) ≤ 99 ∧ (97 : Nat) ≤ 122 ∧
      (readResponse 1 false 122
          (frameEvents (sendRequest 1 false 122 [54, 48, 49, 53]))
        = some ([54, 48, 49, 53] ++ [0])
      ∧ ([54, 48, 49, 53] ++ [0]).takeWhile isdigitB = [54, 48, 49, 53]) :=
  ⟨by decide, by decide,
    roundtrip_encode_decode 1 122 false [54, 48, 49, 53] (by decide)
      (by decide) (by decide) (by decide) (by decide)⟩

/-- C2, counterexample: the claimed concrete frame is wrong.  Encoding
address 1, direction read, command z (122) with no value emits the
checksum character B (66), because the ASCII sum 58+48+49+114+122 = 391
leaves remainder 1 modulo 26, not 23; the emitted frame therefore
differs from the claimed one, whose checksum byte is X (88). -/
theorem checksum_example_counterexample :
    sendRequest 1 false 122 [] = [58, 48, 49, 114, 122, 66, 10]
    ∧ sendRequest 1 false 122 [] ≠ [58, 48, 49, 114, 122, 88, 10] := by
  constructor
  · decide
  · decide

/-- C2, amended: the checksum character of a frame equals the sum of the
ASCII values of every byte from the leading colon through the end of the
value field, reduced modulo 26 and mapped to the letter A plus the
residue, and the checksum character itself is never fed into the
checksum; the frame for address 1, direction read, command z, no value
is the payload bytes of colon 0 1 r z followed by checksum letter B (391
mod 26 = 1) and a newline, and with value 6015 the checksum letter is X,
matching the worked example in the source header comment. -/
theorem checksum_formula_amended (device_id command : Nat) (set : Bool)
    (value : List Nat) (h1 : device_id ≤ 99) (h2 : command < 128)
    (h3 : ∀ c ∈ value, c < 128) :
    sendRequest device_id set command value
      = requestPayload device_id set command value ++
          [65 + (requestPayload device_id set command value).sum % 26, 10]
    ∧ sendRequest 1 false 122 [] = [58, 48, 49, 114, 122, 66, 10]
    ∧ sendRequest 1 false 122 [54, 48, 49, 53]
        = [58, 48, 49, 114, 122, 54, 48, 49, 53, 88, 10] := by
  refine ⟨?_, by decide, by decide⟩
  have hP : requestPayload device_id set command value
      = 58 :: (48 + device_id / 10) :: (48 + device_id % 10) ::
          (if set then (115 : Nat) else 114) :: command :: value := by
    simp [requestPayload, addrChars_eq device_id h1]
  have hall : ∀ c ∈ requestPayload device_id set command value, c < 128 := by
    intro c hc
    rw [hP] at hc
    simp only [List.mem_cons] at hc
    rcases hc with rfl | rfl | rfl | rfl | rfl | hc
    · omega
    · omega
    · omega
    · split <;> omega
    · omega
    · exact h3 c hc
  rw [sendRequest,
    foldl_addOutputCharacter_sum (requestPayload device_id set command value)
      0 (by omega) hall]
  simp [getChecksumCharacter, Nat.add_comm]

/-- Witness for the amended C2 at a concrete input: address 1, read,
command z, value 6015. -/
theorem checksum_formula_amended_witness :
    (1 : Nat) ≤ 99 ∧ (122 : Nat) < 128 ∧
      (sendRequest 1 false 122 [54, 48, 49, 53]
        = requestPayload 1 false 122 [54, 48, 49, 53] ++
            [65 + (requestPayload 1 false 122 [54, 48, 49, 53]).sum % 26, 10]
      ∧ sendRequest 1 false 122 [] = [58, 48, 49, 114, 122, 66, 10]
      ∧ sendRequest 1 false 122 [54, 48, 49, 53]
          = [58, 48, 49, 114, 122, 54, 48, 49, 53, 88, 10]) :=
  ⟨by decide, by decide,
    checksum_formula_amended 1 122 false [54, 48, 49, 53] (by decide)
      (by decide) (by decide)⟩

/-- C3, counterexample: a per-character read that times out during the
synchronization phase does not abort the read.  Here the very first read
times out (yielding the sentinel 0, which merely counts against the junk
budget), yet the read then locks onto the following well-formed frame
and succeeds. -/
theorem sync_timeout_counterexample :
    readResponse 1 false 122
        (ReadEvent.timeout :: frameEvents (sendRequest 1 false 122 []))
      = some [0] := by
  decide

/-- C3, amended: during the synchronization phase a per-character read
that times out yields the sentinel byte 0 and is treated exactly like
any other non-colon byte, consuming one unit of the junk budget; the
read is not aborted at that point, and when the budget is exhausted by
timeouts the read fails through the same undifferentiated Boolean
failure as a junk overflow, so the code does not distinguish a Timeout
outcome from a Junk outcome. -/
theorem sync_timeout_amended (budget : Nat) (es : List ReadEvent) :
    syncLoop budget (ReadEvent.timeout :: es)
        = syncLoop budget (ReadEvent.byte 1 :: es)
    ∧ syncLoop budget (ReadEvent.timeout :: es) = syncLoop (budget - 1) es
    ∧ readResponseIntoBuffer 1 15 (List.replicate 32 ReadEvent.timeout)
        = none := by
  refine ⟨?_, ?_, by decide⟩
  · cases budget with
    | zero => rfl
    | succ b =>
      rw [syncLoop_succ_cons, syncLoop_succ_cons]
      simp [readEventValue]
  · cases budget with
    | zero => rfl
    | succ b =>
      rw [syncLoop_succ_cons]
      by_cases hb : b = 0
      · subst hb
        simp [syncLoop]
      · simp only [Nat.add_sub_cancel, if_neg hb, readEventValue]
        rw [if_neg (by decide)]

/-- C4: evaluation of the frame reader at the failing input.  When the
payload loop reads the full buffer length of bytes (here 15 digit bytes
after the colon and a matching address) without ever seeing an uppercase
checksum terminator, the C for-loop falls through and the read returns
success with a buffer that was never checksum-validated, even though the
claim (and the comment above readResponse, which states that a
successful buffer read implies a validated checksum) requires a
failure. -/
theorem payload_overflow_returns_success :
    readResponseIntoBuffer 1 15
        (frameEvents ([58, 48, 49] ++ List.replicate 15 48))
      = some (List.replicate 15 48, []) := by
  decide

/-- C5: if the transport never yields a colon byte, the reader fails
within the junk budget and never hangs.  Only the first 31 reads can
matter: the hypothesis constrains just the first 31 events (reads past
the end of the list are timeouts yielding 0, and the 32nd read fails the
budget check before its byte is even compared), and the whole read
returns the failure outcome.  Real time is abstracted by the event
model, each event standing for one bounded per-character wait. -/
theorem sync_no_colon_fails (device_id buffer_length : Nat)
    (es : List ReadEvent)
    (h : ∀ e ∈ es.take 31, readEventValue e ≠ 58) :
    readResponseIntoBuffer device_id buffer_length es = none := by
  have hs : syncLoop MINGHE_MAX_JUNK_CHARACTERS es = none :=
    syncLoop_none MINGHE_MAX_JUNK_CHARACTERS es (by simpa using h)
  simp [readResponseIntoBuffer, hs]

/-- Witness for C5 at a concrete input: a stream of 40 bytes of the
letter A (65), which never contains a colon. -/
theorem sync_no_colon_fails_witness :
    (∀ e ∈ (List.replicate 40 (ReadEvent.byte 65)).take 31,
        readEventValue e ≠ 58)
    ∧ readResponseIntoBuffer 1 15 (List.replicate 40 (ReadEvent.byte 65))
        = none :=
  ⟨by decide, sync_no_colon_fails 1 15 _ (by decide)⟩

/-- C6: for every sequence of reset and addOutputCharacter calls starting
from the freshly constructed accumulator (whose constructor calls reset,
so the counter starts at 0), the counter stays in the interval from 0
below 26 - any prefix of calls is itself such a sequence - and therefore
getChecksumCharacter always yields a byte between the letters A (65) and
Z (90) inclusive. -/
theorem checksum_character_range (ops : List ChecksumOp) :
    runChecksum ops 0 < 26
    ∧ 65 ≤ getChecksumCharacter (runChecksum ops 0)
    ∧ getChecksumCharacter (runChecksum ops 0) ≤ 90 := by
  have h : runChecksum ops 0 < 26 := runChecksum_lt ops 0 (by omega)
  refine ⟨h, ?_, ?_⟩
  · simp [getChecksumCharacter]
  · simp only [getChecksumCharacter]
    omega

/-- C7: the accumulated-charge setter tolerates upward drift strictly
below 100 milliamp-hour units.  With a written value of 1000, an ok
acknowledgement and a read-back frame carrying 1050 the setter reports
success; with a read-back frame carrying 1200 it reports failure. -/
theorem mamp_hours_tolerance_window :
    setmAmpHours 1 1000
        (frameEvents (okResponseBytes ++ sendRequest 1 false 97 [49, 48, 53, 48]))
      = true
    ∧ setmAmpHours 1 1000
        (frameEvents (okResponseBytes ++ sendRequest 1 false 97 [49, 50, 48, 48]))
      = false := by
  constructor
  · decide
  · decide

/-- C8: executeGetCommand returns the sentinel 0 whenever any stage of
the read fails (readResponse collapses every failure - timeout and junk
overflow in sync, address mismatch, checksum mismatch, direction or
command mismatch - into the same failing outcome), and on success it
returns the value digit-string parsed as an unsigned 32-bit integer; the
concrete conjuncts evaluate an all-timeout stream, a frame addressed to
device 02 read by device 1, and a good frame carrying 6015. -/
theorem get_command_sentinel (device_id command : Nat)
    (input : List ReadEvent) :
    (readResponse device_id false command input = none →
        executeGetCommand device_id command input = 0)
    ∧ (∀ v, readResponse device_id false command input = some v →
        executeGetCommand device_id command input = atolU32 v)
    ∧ executeGetCommand 1 122 [] = 0
    ∧ executeGetCommand 1 122
        (frameEvents (sendRequest 2 false 122 [54, 48, 49, 53])) = 0
    ∧ executeGetCommand 1 122
        (frameEvents (sendRequest 1 false 122 [54, 48, 49, 53])) = 6015 := by
  refine ⟨?_, ?_, by decide, by decide, by decide⟩
  · intro h
    simp [executeGetCommand, h]
  · intro v h
    simp [executeGetCommand, h]

/-- Witness for C8: the failure conjunct applied to the empty (silent)
stream and the success conjunct applied to a good frame carrying 1050. -/
theorem get_command_sentinel_witness :
    executeGetCommand 1 122 [] = 0
    ∧ executeGetCommand 1 97
        (frameEvents (sendRequest 1 false 97 [49, 48, 53, 48]))
      = atolU32 [49, 48, 53, 48, 0] :=
  ⟨(get_command_sentinel 1 122 []).1 (by decide),
    (get_command_sentinel 1 97
      (frameEvents (sendRequest 1 false 97 [49, 48, 53, 48]))).2.1
      [49, 48, 53, 48, 0] (by decide)⟩

/-- C9: for every timeout bound, readCharUntilTimeout returns the byte
value 0 both when the per-character wait times out with nothing arriving
and when the next transported byte is the NUL byte 0x00, consuming one
event either way - so at this interface a received NUL byte is
indistinguishable from a per-character timeout. -/
theorem timeout_nul_indistinguishable (timeout_ms : Nat)
    (es : List ReadEvent) :
    readCharUntilTimeout timeout_ms (ReadEvent.timeout :: es) = (0, es)
    ∧ readCharUntilTimeout timeout_ms (ReadEvent.byte 0 :: es) = (0, es)
    ∧ readCharUntilTimeout timeout_ms (ReadEvent.timeout :: es)
        = readCharUntilTimeout timeout_ms (ReadEvent.byte 0 :: es) :=
  ⟨rfl, rfl, rfl⟩

/-- C10, counterexample: the claim asserts that every read-back strictly
below the written value makes the setter fail, but when the shortfall
exceeds 2^32 minus the tolerance the wrapped difference lands inside the
tolerance window.  Writing 4294967295 with an ok acknowledgement and a
read-back frame carrying 0 (a value strictly below the written one)
makes setmAmpHours report success: the unsigned difference 0 - 4294967295
wraps to 1, which is below the 100-unit tolerance. -/
theorem wraparound_drift_counterexample :
    setmAmpHours 1 4294967295
        (frameEvents (okResponseBytes ++ sendRequest 1 false 97 [48]))
      = true
    ∧ executeGetCommand 1 97 (frameEvents (sendRequest 1 false 97 [48])) = 0
    ∧ (0 : Nat) < 4294967295 := by
  refine ⟨by decide, by decide, by decide⟩

/-- C10, amended: the drift check of setmAmpHours and setPowerOnTime
computes the unsigned 32-bit difference of the read-back minus the
written value, so whenever the read-back is strictly below the written
value and the shortfall is at most 2^32 minus the tolerance, the
subtraction wraps to a value at or above the tolerance and the
verification (hence the setter) reports failure; in particular a failed
read-back returning 0 against a typical nonzero written value such as
1000 fails, as the concrete setter-level conjunct shows.  Only when the
shortfall exceeds 2^32 minus the tolerance (see the counterexample) does
the wrap land inside the window. -/
theorem wraparound_drift_amended (written readback : Nat)
    (h1 : readback < written) (h2 : written < 4294967296)
    (h3 : written - readback ≤ 4294967296 - 100) :
    mAmpHoursVerify written readback = false
    ∧ powerOnTimeVerify written readback = false
    ∧ setmAmpHours 1 1000
        (frameEvents (okResponseBytes ++ sendRequest 1 false 97 [48]))
      = false := by
  refine ⟨?_, ?_, by decide⟩
  · simp only [mAmpHoursVerify, MAMP_HOUR_TOLERANCE, sub32,
      decide_eq_false_iff_not, not_lt]
    omega
  · simp only [powerOnTimeVerify, SECOND_TOLERANCE, sub32,
      decide_eq_false_iff_not, not_lt]
    omega

/-- Witness for the amended C10: written value 1000, read-back 900. -/
theorem wraparound_drift_amended_witness :
    (900 : Nat) < 1000 ∧ (1000 : Nat) < 4294967296
    ∧ (1000 : Nat) - 900 ≤ 4294967296 - 100
    ∧ (mAmpHoursVerify 1000 900 = false
      ∧ powerOnTimeVerify 1000 900 = false
      ∧ setmAmpHours 1 1000
          (frameEvents (okResponseBytes ++ sendRequest 1 false 97 [48]))
        = false) :=
  ⟨by decide, by decide, by decide,
    wraparound_drift_amended 1000 900 (by decide) (by decide) (by decide)⟩
